import Mathlib

/-!
Shallow embedding of the managed connection pool in
`src/IPC/ManagedRedisCluster.ts` (class `ManagedRedisCluster`).

Modelling conventions:
* JS `Map<string, fastRedis>` (`this.pool`) is a `List Client` in insertion
  order with unique names; `Map#set` replaces an existing key in place or
  appends a new one.
* JS `Set<string>` (`this.poolUsed`) is a duplicate-free
  `List (Option String)` in insertion order; `none` models the JS value
  `undefined` (which a `Set` can hold like any other value).
* Wall-clock instants (`Date.now()`) are `Nat` parameters `now`.
* The process-unique ids produced in `create` are parameters (`String`
  arguments or a `Nat → String` source for loops that create several).
* An async Redis call's eventual outcome is an oracle `Bool` parameter
  (`true` = the promise fulfils, `false` = it rejects).
* A method that can throw is embedded as `Except String _`; the thrown
  message is the string.
-/

/-- One pooled `fastRedis` client object: its assigned `name`, the
`lastUsedTime` stamp, and the length of its internal command queue
(`client.queue.length`, read only by `acquire`'s sort). -/
structure Client where
  name : String
  lastUsedTime : Nat
  queueLength : Nat
deriving DecidableEq, Repr

/-- The mutable fields of `ManagedRedisCluster`: configuration
(`minPool`, `maxPool`, `poolTTL`), the pool map, the in-use id set
`poolUsed`, the pub/sub designation `poolUsedPS` and the topic list
`PSTopics`.  (`poolOptions` is an opaque pass-through and is omitted.) -/
structure PoolState where
  minPool : Nat
  maxPool : Nat
  poolTTL : Nat
  pool : List Client
  poolUsed : List (Option String)
  poolUsedPS : String
  PSTopics : List String
deriving DecidableEq, Repr

/-- JS `Set#add`: appends the value unless already present. -/
def insertSet (v : Option String) (l : List (Option String)) : List (Option String) :=
  if v ∈ l then l else l ++ [v]

/-- JS `Map#set` on the pool: replace the entry with the same key if one
exists, else append. -/
def mapSet (pool : List Client) (c : Client) : List Client :=
  if pool.any (fun d => d.name == c.name) then
    pool.map (fun d => if d.name == c.name then c else d)
  else
    pool ++ [c]

/-- JS semantics of `this.poolUsed.has(x)` at ManagedRedisCluster.ts:150:
`poolUsed` is a `Set` of id *strings* while `x` is the client *object*;
SameValueZero equality between an object and a string (or `undefined`) never
holds, so the membership test is identically `false` — the filter does not
exclude in-use clients. -/
def jsSetHasObj (_used : List (Option String)) (_x : Client) : Bool := false

/-- JS semantics of `x !== this.poolUsedPS` at ManagedRedisCluster.ts:150:
strict inequality between a client object and a string is identically
`true` — the filter does not exclude the designated subscriber either. -/
def jsObjNeqStr (_x : Client) (_ps : String) : Bool := true

/-- The client object built by `create` (ManagedRedisCluster.ts:108-123):
fresh name, `lastUsedTime = Date.now()`, empty command queue. -/
def mkClient (name : String) (now : Nat) : Client :=
  { name := name, lastUsedTime := now, queueLength := 0 }

/-- `create(options)` (ManagedRedisCluster.ts:108-123): builds a client,
wires its lifecycle listeners (not part of the tracked state) and stores it
in the pool under its name. -/
def createOp (s : PoolState) (name : String) (now : Nat) : PoolState :=
  { s with pool := mapSet s.pool (mkClient name now) }

/-- State right after `super()` in the constructor, before the `create`
loop (ManagedRedisCluster.ts:38-48). -/
def initState (minPool maxPool ttl : Nat) : PoolState :=
  { minPool := minPool, maxPool := maxPool, poolTTL := ttl,
    pool := [], poolUsed := [], poolUsedPS := "", PSTopics := [] }

/-- The constructor (ManagedRedisCluster.ts:38-52): records the options and
calls `create` `minPool` times; `ids i` is the unique id generated by the
`i`-th `create`. -/
def constructOp (minPool maxPool ttl : Nat) (ids : Nat → String) (now : Nat) : PoolState :=
  (List.range minPool).foldl (fun st i => createOp st (ids i) now)
    (initState minPool maxPool ttl)

/-- One iteration of the `for (const client of this.pool.values())` loop
body of `evict` (ManagedRedisCluster.ts:130-135): close and delete `c`
when it is idle past the TTL, the (live) pool size exceeds `minPool`, and
it is not the designated subscriber.  There is no in-use (`poolUsed`)
guard in the source. -/
def evictScan (now : Nat) (st : PoolState) (c : Client) : PoolState :=
  if (now : Int) - (c.lastUsedTime : Int) ≥ (st.poolTTL : Int)
      ∧ st.pool.length > st.minPool ∧ c.name ≠ st.poolUsedPS then
    { st with pool := st.pool.filter (fun d => d.name ≠ c.name) }
  else st

/-- Stable insertion, ascending in `queue.length`; equal keys keep their
relative order, matching the stable `Array#sort` required by ECMAScript. -/
def insertByQueue (c : Client) : List Client → List Client
  | [] => [c]
  | d :: rest => if d.queueLength ≤ c.queueLength then d :: insertByQueue c rest
                 else c :: d :: rest

/-- Stable sort by ascending `queue.length`, modelling
`.sort((a, b) => a.queue.length - b.queue.length)` at
ManagedRedisCluster.ts:151. -/
def sortByQueue (l : List Client) : List Client :=
  l.foldr insertByQueue []

/-- The `clientList` computed by the automatic path of `acquire`
(ManagedRedisCluster.ts:149-151): spread the pool values, filter with the
(vacuous, see `jsSetHasObj` / `jsObjNeqStr`) in-use and subscriber tests,
sort by queue length. -/
def selectCandidates (s : PoolState) : List Client :=
  sortByQueue (s.pool.filter
    (fun x => !(jsSetHasObj s.poolUsed x) && jsObjNeqStr x s.poolUsedPS))

/-- `acquire()` without an explicit id (ManagedRedisCluster.ts:148-167).
If the candidate list is empty: below `maxPool` the pool is expanded by a
`create` (fresh id `fid`), the new id is added to `poolUsed` and the stored
client (`this.pool.get(id)`, i.e. exactly `mkClient fid now`) returned;
at `maxPool` the call throws.  Otherwise the head of the sorted list is
returned after `poolUsed.add(leastBusyClient.id)` — the client object has
no `id` property (its field is `name`), so the value added is the JS
`undefined`, modelled as `none`. -/
def acquireAuto (s : PoolState) (fid : String) (now : Nat) :
    Except String (Client × PoolState) :=
  match selectCandidates s with
  | [] =>
    if s.pool.length < s.maxPool then
      let s1 := createOp s fid now
      Except.ok (mkClient fid now, { s1 with poolUsed := insertSet (some fid) s1.poolUsed })
    else
      Except.error "All clients are buzy, come back later"
  | c :: _ =>
    Except.ok (c, { s with poolUsed := insertSet none s.poolUsed })

/-- `acquire(id)` with an explicit id (ManagedRedisCluster.ts:143-146):
adds the id to `poolUsed` and returns `this.pool.get(id)`. -/
def acquireId (s : PoolState) (id : String) : Option Client × PoolState :=
  (s.pool.find? (fun c => c.name == id),
   { s with poolUsed := insertSet (some id) s.poolUsed })

/-- `release(client)` (ManagedRedisCluster.ts:174-176):
`poolUsed.delete(client.name)`. -/
def releaseOp (s : PoolState) (c : Client) : PoolState :=
  { s with poolUsed := s.poolUsed.erase (some c.name) }

/-- `client.lastUsedTime = Date.now()`: the client object is shared with
the pool map, so the pool entry with that name is updated. -/
def stampLastUsed (s : PoolState) (name : String) (now : Nat) : PoolState :=
  let stamped := s.pool.map (fun c => if c.name == name then { c with lastUsedTime := now } else c)
  { s with pool := stamped }

/-- `run(command)` (ManagedRedisCluster.ts:58-66): acquire, stamp
`lastUsedTime`, issue `rawCallAsync` (outcome oracle `callOk`); `release`
runs only in the fulfilment handler (`.then`), so a rejected call leaves
`poolUsed` untouched.  The returned `Bool` is `true` iff the promise
returned by `run` fulfils. -/
def runOp (s : PoolState) (fid : String) (now : Nat) (callOk : Bool) :
    Except String (Bool × PoolState) :=
  match acquireAuto s fid now with
  | Except.error e => Except.error e
  | Except.ok (c, s1) =>
    let s2 := stampLastUsed s1 c.name now
    if callOk then Except.ok (true, releaseOp s2 c) else Except.ok (false, s2)

/-- `subscribe(topic)` (ManagedRedisCluster.ts:72-82): acquire, stamp,
set `poolUsedPS` to the client's name, append the topics, fire
`rawCall(['PSUBSCRIBE', ...])` with a message callback and return
`Promise.resolve(true)`.  The PSUBSCRIBE outcome oracle `psubOk` is never
consulted: the call is fire-and-forget. -/
def subscribeOp (s : PoolState) (topics : List String) (fid : String) (now : Nat)
    (_psubOk : Bool) : Except String (Bool × PoolState) :=
  match acquireAuto s fid now with
  | Except.error e => Except.error e
  | Except.ok (c, s1) =>
    let s2 := stampLastUsed s1 c.name now
    Except.ok (true, { s2 with poolUsedPS := c.name, PSTopics := s2.PSTopics ++ topics })

/-- The two return branches of `unsubscribe`
(ManagedRedisCluster.ts:93-101), applied to the state `s3` reached after
`this.PSTopics` was filtered: when the topic list became empty the
fulfilment handler of `PUNSUBSCRIBE` also clears `poolUsedPS`; a rejected
`PUNSUBSCRIBE` (oracle `punsubOk = false`) skips the fulfilment handlers,
so nothing further changes and the promise rejects. -/
def punsubReturn (punsubOk : Bool) (s3 : PoolState) : Except String (Bool × PoolState) :=
  if s3.PSTopics.length < 1 then
    if punsubOk then Except.ok (true, { s3 with poolUsedPS := "" })
    else Except.ok (false, s3)
  else
    if punsubOk then Except.ok (true, s3) else Except.ok (false, s3)

/-- `unsubscribe(topic)` (ManagedRedisCluster.ts:88-102): acquire, stamp,
drop the given topics from `PSTopics`; then `rawCallAsync(['PUNSUBSCRIBE',
...])` (outcome oracle `punsubOk`) and, only when the topic list became
empty and only in the fulfilment handler, clear `poolUsedPS`.  The returned
`Bool` is `true` iff the promise returned by `unsubscribe` fulfils. -/
def unsubscribeOp (s : PoolState) (topics : List String) (fid : String) (now : Nat)
    (punsubOk : Bool) : Except String (Bool × PoolState) :=
  match acquireAuto s fid now with
  | Except.error e => Except.error e
  | Except.ok (c, s1) =>
    punsubReturn punsubOk
      { stampLastUsed s1 c.name now with
        PSTopics := (stampLastUsed s1 c.name now).PSTopics.filter
          (fun x => !(topics.contains x)) }

/-- `evict()` (ManagedRedisCluster.ts:128-136): iterate over the pool
values, and for each client close and delete it when it is idle past the
TTL, the (live) pool size exceeds `minPool`, and it is not the designated
subscriber.  There is no in-use (`poolUsed`) guard in the source. -/
def evictOp (s : PoolState) (now : Nat) : PoolState :=
  s.pool.foldl (evictScan now) s

/-- `onClientError` (ManagedRedisCluster.ts:195-208): re-emit, detach
listeners, delete the client from the pool, and if the pool fell below
`minPool` run the `create` loop — which creates `minPool` new clients
(ids `ids 0 .. ids (minPool-1)`), not just enough to reach `minPool`.
`poolUsed` and `poolUsedPS` are not touched. -/
def onClientErrorOp (s : PoolState) (name : String) (ids : Nat → String) (now : Nat) :
    PoolState :=
  if (s.pool.filter (fun c => c.name ≠ name)).length < s.minPool then
    (List.range s.minPool).foldl (fun st i => createOp st (ids i) now)
      { s with pool := s.pool.filter (fun c => c.name ≠ name) }
  else
    { s with pool := s.pool.filter (fun c => c.name ≠ name) }

/-- A command element as `run` receives it: a JS string (sequence of UTF-16
code units, modelled as `List Char`) or a `Buffer` (modelled as the list of
its byte values). -/
inductive StrOrBuf where
  | str : List Char → StrOrBuf
  | buf : List Nat → StrOrBuf
deriving DecidableEq, Repr

/-- The sentinel marker `'\u0002'` prefixed to encoded binary elements. -/
def sentinel : Char := Char.ofNat 2

/-- Encoding of one command element at ManagedRedisCluster.ts:61:
`Buffer.isBuffer(x) ? '\u0002' + a85.stringify(x) : x`, with the ascii85
codec's `stringify` abstracted as a parameter. -/
def encodeElem (stringify : List Nat → List Char) : StrOrBuf → List Char
  | StrOrBuf.str s => s
  | StrOrBuf.buf b => sentinel :: stringify b

/-- The element-wise `command.map(...)` of `run`. -/
def encodeCommand (stringify : List Nat → List Char) (command : List StrOrBuf) :
    List (List Char) :=
  command.map (encodeElem stringify)

/-- Inbound payload decoding at ManagedRedisCluster.ts:213:
`rawData.startsWith('\u0002') ? a85.parse(rawData.slice(1)) : rawData`,
with the codec's `parse` abstracted as a parameter. -/
def decodePayload (parse : List Char → List Nat) (rawData : List Char) : StrOrBuf :=
  match rawData with
  | c :: rest => if c = sentinel then StrOrBuf.buf (parse rest) else StrOrBuf.str (c :: rest)
  | [] => StrOrBuf.str []

/-- A JS value as it can appear in the object emitted with the `message`
event: `undefined`, a string, a decoded `Buffer`, or a client object. -/
inductive JsValue where
  | undef : JsValue
  | str : List Char → JsValue
  | buf : List Nat → JsValue
  | clientObj : Client → JsValue
deriving DecidableEq, Repr

/-- JS property access `obj.key` on an object literal modelled as a list of
key/value pairs: the stored value, or `undefined` when the key is absent. -/
def jsGet (obj : List (String × JsValue)) (key : String) : JsValue :=
  match obj.find? (fun kv => kv.1 == key) with
  | some kv => kv.2
  | none => JsValue.undef

/-- View a decoded payload as the JS value placed in the `data` field. -/
def toJsValue : StrOrBuf → JsValue
  | StrOrBuf.str s => JsValue.str s
  | StrOrBuf.buf b => JsValue.buf b

/-- `onPubsubMessage` (ManagedRedisCluster.ts:210-219): `topic` is the
frame's element at index 2 (read before the `pop`; `undefined` when the
frame is shorter), `rawData` is `message.pop()` (the last element), `data`
is the decoded payload, and the emitted object is the literal
`{ client, topic, data }` — the `client` key holds the whole client
object.  On an empty frame `pop()` yields `undefined` and
`rawData.startsWith` throws: modelled as `none`. -/
def onPubsubMessage (parse : List Char → List Nat) (client : Client)
    (message : List (List Char)) : Option (List (String × JsValue)) :=
  match message.getLast? with
  | none => none
  | some rawData =>
    let topic : JsValue := match message[2]? with
      | some t => JsValue.str t
      | none => JsValue.undef
    some [("client", JsValue.clientObj client), ("topic", topic),
          ("data", toJsValue (decodePayload parse rawData))]

/-- States reachable through the public surface of the class under the
side conditions of the amended C7 claim: generated ids are non-empty
(`create` builds them as `pid-timestamp-random`), every `subscribe` call
passes a non-empty topic list, and every `PUNSUBSCRIBE` issued by
`unsubscribe` completes successfully. -/
inductive ReachableR : PoolState → Prop where
  | init : ∀ minPool maxPool ttl ids now, (∀ i, ids i ≠ "") →
      ReachableR (constructOp minPool maxPool ttl ids now)
  | runStep : ∀ s fid now ok b s1, ReachableR s → fid ≠ "" →
      runOp s fid now ok = Except.ok (b, s1) → ReachableR s1
  | subStep : ∀ s topics fid now ok b s1, ReachableR s → fid ≠ "" → topics ≠ [] →
      subscribeOp s topics fid now ok = Except.ok (b, s1) → ReachableR s1
  | unsubStep : ∀ s topics fid now b s1, ReachableR s → fid ≠ "" →
      unsubscribeOp s topics fid now true = Except.ok (b, s1) → ReachableR s1
  | evictStep : ∀ s now, ReachableR s → ReachableR (evictOp s now)
  | errStep : ∀ s name ids now, ReachableR s → (∀ i, ids i ≠ "") →
      ReachableR (onClientErrorOp s name ids now)
  | acquireIdStep : ∀ s id, ReachableR s → ReachableR (acquireId s id).2
  | releaseStep : ∀ s c, ReachableR s → ReachableR (releaseOp s c)

/-- All clients stored in the pool carry a non-empty name. -/
def NamesOK (s : PoolState) : Prop := ∀ c ∈ s.pool, c.name ≠ ""

/-- The C7 state invariant: the topic list is empty exactly when the
subscriber designation is cleared. -/
def TopicsPS (s : PoolState) : Prop := s.PSTopics = [] ↔ s.poolUsedPS = ""

/-- C1: the claim says a connection whose id is in `poolUsed` is never
returned by the automatic-selection path of `acquire()`.  Counter-scenario
evaluated on the code: pool `{a}` (valid config `minPool = 1`,
`maxPool = 10`), the id `"a"` checked out via `acquire("a")`, and then
`acquire()` with no id returns client `"a"` — whose id is in `poolUsed` at
the time of selection — because the filter at line 150 tests the client
*object* against the id-string set and so never excludes anything. -/
theorem c1_auto_select_returns_inuse_client :
    some "a" ∈ ((acquireId (constructOp 1 10 100 (fun _ => "a") 0) "a").2).poolUsed ∧
    (acquireAuto ((acquireId (constructOp 1 10 100 (fun _ => "a") 0) "a").2) "f" 1).toOption =
      some (⟨"a", 0, 0⟩,
        ⟨1, 10, 100, [⟨"a", 0, 0⟩], [some "a", none], "", []⟩) := by decide

/-- C2: the claim says every reachable state keeps
`minPool ≤ |Pool| ≤ maxPool` for valid configurations.  Counter-scenario
evaluated on the code: with `minPool = maxPool = 2` (valid), one fatal
error on client `"a"` drops the pool to 1 and the self-heal loop then
creates `minPool = 2` new clients, leaving `|Pool| = 3 > maxPool = 2`. -/
theorem c2_pool_exceeds_maxpool :
    (onClientErrorOp (constructOp 2 2 100 (fun i => if i = 0 then "a" else "b") 0)
        "a" (fun i => if i = 0 then "c" else "d") 0).pool.length = 3 ∧
    (onClientErrorOp (constructOp 2 2 100 (fun i => if i = 0 then "a" else "b") 0)
        "a" (fun i => if i = 0 then "c" else "d") 0).maxPool = 2 := by decide

/-- C3: the claim says the fatal-error handler creates exactly enough
replacements to reach `minPool`; with `minPool = 2` and a full pool of 2,
one fatal error should leave `|Pool| = 2` with one new client.  Evaluated
on the code: the handler instead runs the `create` loop `minPool` times,
so the pool ends as `[b, c, d]` — size 3, with two newly created
clients. -/
theorem c3_selfheal_creates_minpool_not_deficit :
    onClientErrorOp (constructOp 2 10 100 (fun i => if i = 0 then "a" else "b") 0)
        "a" (fun i => if i = 0 then "c" else "d") 0 =
      ⟨2, 10, 100, [⟨"b", 0, 0⟩, ⟨"c", 0, 0⟩, ⟨"d", 0, 0⟩], [], "", []⟩ := by decide

/-- C4: the claim says the connection acquired by `run` has its in-use
mark cleared on every exit path.  Evaluated on the code with pool `{a}`:
when the raw call rejects (`callOk = false`) the fulfilment-only `.then`
never runs `release`, and even when it fulfils, `release` deletes
`client.name` while the mark `acquire` recorded was `leastBusyClient.id`,
i.e. `undefined` (`none`) — so on both paths `poolUsed` still holds the
mark afterwards. -/
theorem c4_run_leaves_inuse_mark :
    (runOp (constructOp 1 10 100 (fun _ => "a") 0) "f" 5 false).toOption =
      some (false, ⟨1, 10, 100, [⟨"a", 5, 0⟩], [none], "", []⟩) ∧
    (runOp (constructOp 1 10 100 (fun _ => "a") 0) "f" 5 true).toOption =
      some (true, ⟨1, 10, 100, [⟨"a", 5, 0⟩], [none], "", []⟩) := by decide

/-- C5: the claim says `evict()` never closes or removes a connection
whose id is in `poolUsed`.  Counter-scenario evaluated on the code:
`minPool = 2`, a fatal error first overshoots the pool to `[b, c, d]`,
the id `"b"` is checked out via `acquire("b")`, and an eviction sweep at
`now = ttl` then deletes the in-use client `"b"` — the TTL, size and
subscriber guards all pass and there is no in-use guard in the loop. -/
theorem c5_evict_removes_inuse_client :
    some "b" ∈ ((acquireId (onClientErrorOp
        (constructOp 2 10 100 (fun i => if i = 0 then "a" else "b") 0)
        "a" (fun i => if i = 0 then "c" else "d") 0) "b").2).poolUsed ∧
    evictOp ((acquireId (onClientErrorOp
        (constructOp 2 10 100 (fun i => if i = 0 then "a" else "b") 0)
        "a" (fun i => if i = 0 then "c" else "d") 0) "b").2) 100 =
      ⟨2, 10, 100, [⟨"c", 0, 0⟩, ⟨"d", 0, 0⟩], [some "b"], "", []⟩ := by decide

/-- C6: the claim says `acquire()` raises `PoolExhausted` exactly when no
free candidate exists and `|Pool| = maxPool`.  Counter-scenario evaluated
on the code: `minPool = maxPool = 1` (valid), pool `{a}` with `"a"`
checked out — no free connection and the pool at `maxPool` — yet
`acquire()` succeeds and hands out the in-use client `"a"`, because the
broken filter keeps every pool member and the throw is reached only when
the pool is empty. -/
theorem c6_no_poolexhausted_when_full_and_busy :
    ((acquireId (constructOp 1 1 100 (fun _ => "a") 0) "a").2).pool.length =
      ((acquireId (constructOp 1 1 100 (fun _ => "a") 0) "a").2).maxPool ∧
    some "a" ∈ ((acquireId (constructOp 1 1 100 (fun _ => "a") 0) "a").2).poolUsed ∧
    (acquireAuto ((acquireId (constructOp 1 1 100 (fun _ => "a") 0) "a").2) "f" 1).toOption =
      some (⟨"a", 0, 0⟩,
        ⟨1, 1, 100, [⟨"a", 0, 0⟩], [some "a", none], "", []⟩) := by decide

/-- C7 counterexample: the claim's general invariant says an empty
TopicSet implies the subscriber designation is cleared.  Evaluated on the
code: from a fresh pool `{a}`, `subscribe([])` sets `poolUsedPS` to the
acquired client's name `"a"` while appending no topic, so the state has
`PSTopics = []` together with `poolUsedPS = "a" ≠ ""`. -/
theorem c7_empty_subscribe_breaks_invariant :
    (subscribeOp (constructOp 1 10 100 (fun _ => "a") 0) [] "f" 5 true).toOption =
      some (true, ⟨1, 10, 100, [⟨"a", 5, 0⟩], [none], "a", []⟩) ∧
    ("a" : String) ≠ "" := by decide

/-- C8: `run`'s binary encoding (prefix the sentinel, apply the codec's
`stringify`) composed with the router's inbound decoding (strip the
sentinel, apply `parse`) returns the payload byte-identically, provided
`parse` inverts `stringify` on that payload. -/
theorem c8_codec_roundtrip (stringify : List Nat → List Char)
    (parse : List Char → List Nat) (b : List Nat)
    (h : parse (stringify b) = b) :
    decodePayload parse (encodeElem stringify (StrOrBuf.buf b)) = StrOrBuf.buf b := by
  simp [decodePayload, encodeElem, h]

/-- Witness for `c8_codec_roundtrip` at a concrete codec and payload. -/
theorem c8_codec_roundtrip_witness :
    (fun l => l.map Char.toNat) ((fun l => l.map Char.ofNat) [72, 105]) = [72, 105] ∧
    decodePayload (fun l => l.map Char.toNat)
        (encodeElem (fun l => l.map Char.ofNat) (StrOrBuf.buf [72, 105])) =
      StrOrBuf.buf [72, 105] :=
  ⟨by decide, c8_codec_roundtrip (fun l => l.map Char.ofNat)
    (fun l => l.map Char.toNat) [72, 105] (by decide)⟩

/-- C9 counterexample: the claim says the emitted `message` event object
has an `id` field holding the subscriber connection's identifier.
Evaluated on the code at a concrete inbound frame: the emitted object is
`{ client, topic, data }` — reading its `id` property yields `undefined`,
not the identifier `"sub1"`. -/
theorem c9_emitted_object_has_no_id_field :
    onPubsubMessage (fun _ => []) ⟨"sub1", 0, 0⟩ [['p'], ['x'], ['t'], ['d']] =
      some [("client", JsValue.clientObj ⟨"sub1", 0, 0⟩),
            ("topic", JsValue.str ['t']), ("data", JsValue.str ['d'])] ∧
    jsGet [("client", JsValue.clientObj ⟨"sub1", 0, 0⟩),
           ("topic", JsValue.str ['t']), ("data", JsValue.str ['d'])] "id" =
      JsValue.undef ∧
    JsValue.undef ≠ JsValue.str ['s', 'u', 'b', '1'] := by decide

/-- C9 amended: for every four-element inbound frame, the emitted object
holds the whole subscriber client object under its `client` field (not an
`id` field), the frame's element at index 2 under `topic`, and under
`data` the frame's last element — decoded via the codec when it begins
with the sentinel marker, passed through verbatim otherwise. -/
theorem c9_emitted_message_fields (parse : List Char → List Nat) (c : Client)
    (e0 e1 tp pl : List Char) :
    ((onPubsubMessage parse c [e0, e1, tp, pl]).map (fun o => jsGet o "client") =
      some (JsValue.clientObj c)) ∧
    ((onPubsubMessage parse c [e0, e1, tp, pl]).map (fun o => jsGet o "topic") =
      some (JsValue.str tp)) ∧
    (∀ rest, pl = sentinel :: rest →
      (onPubsubMessage parse c [e0, e1, tp, pl]).map (fun o => jsGet o "data") =
        some (JsValue.buf (parse rest))) ∧
    (pl.head? ≠ some sentinel →
      (onPubsubMessage parse c [e0, e1, tp, pl]).map (fun o => jsGet o "data") =
        some (JsValue.str pl)) := by
  refine ⟨rfl, rfl, ?_, ?_⟩
  · intro rest hpl
    subst hpl
    simp [onPubsubMessage, decodePayload, jsGet, toJsValue]
  · intro hpl
    match pl with
    | [] => rfl
    | ch :: rest =>
      have hch : ch ≠ sentinel := by
        intro h
        exact hpl (by simp [h])
      simp [onPubsubMessage, decodePayload, jsGet, toJsValue, hch]

/-- Witness for `c9_emitted_message_fields` at a concrete frame whose
payload carries the sentinel marker. -/
theorem c9_emitted_message_fields_witness :
    ((onPubsubMessage (fun l => l.map Char.toNat) ⟨"sub1", 0, 0⟩
        [['p'], ['x'], ['t'], [Char.ofNat 2, 'H']]).map (fun o => jsGet o "data") =
      some (JsValue.buf [72])) ∧
    ([Char.ofNat 2, 'H'] = sentinel :: ['H']) :=
  ⟨by
    have h := (c9_emitted_message_fields (fun l => l.map Char.toNat) ⟨"sub1", 0, 0⟩
      ['p'] ['x'] ['t'] [Char.ofNat 2, 'H']).2.2.1 ['H'] (by decide)
    simpa using h,
   by decide⟩

lemma insertByQueue_length (c : Client) (l : List Client) :
    (insertByQueue c l).length = l.length + 1 := by
  induction l with
  | nil => rfl
  | cons d rest ih =>
    unfold insertByQueue
    split
    · simp [ih]
    · simp

lemma sortByQueue_length (l : List Client) : (sortByQueue l).length = l.length := by
  induction l with
  | nil => rfl
  | cons c rest ih =>
    show (insertByQueue c (sortByQueue rest)).length = rest.length + 1
    rw [insertByQueue_length, ih]

lemma mem_of_mem_insertByQueue {x c : Client} {l : List Client}
    (h : x ∈ insertByQueue c l) : x = c ∨ x ∈ l := by
  induction l with
  | nil => simpa [insertByQueue] using h
  | cons d rest ih =>
    unfold insertByQueue at h
    split at h
    · rcases List.mem_cons.mp h with h1 | h2
      · exact Or.inr (List.mem_cons.mpr (Or.inl h1))
      · rcases ih h2 with h3 | h4
        · exact Or.inl h3
        · exact Or.inr (List.mem_cons.mpr (Or.inr h4))
    · rcases List.mem_cons.mp h with h1 | h2
      · exact Or.inl h1
      · exact Or.inr h2

lemma mem_of_mem_sortByQueue {x : Client} {l : List Client}
    (h : x ∈ sortByQueue l) : x ∈ l := by
  induction l with
  | nil => exact h
  | cons c rest ih =>
    have h2 : x ∈ insertByQueue c (sortByQueue rest) := h
    rcases mem_of_mem_insertByQueue h2 with h3 | h4
    · exact List.mem_cons.mpr (Or.inl h3)
    · exact List.mem_cons.mpr (Or.inr (ih h4))

lemma selectCandidates_eq (s : PoolState) : selectCandidates s = sortByQueue s.pool := by
  unfold selectCandidates jsSetHasObj jsObjNeqStr
  simp

lemma mem_mapSet {d : Client} {pool : List Client} {c : Client}
    (h : d ∈ mapSet pool c) : d ∈ pool ∨ d = c := by
  unfold mapSet at h
  split at h
  · rcases List.mem_map.mp h with ⟨e, he, hd⟩
    by_cases hc : (e.name == c.name) = true
    · rw [if_pos hc] at hd
      exact Or.inr hd.symm
    · rw [if_neg hc] at hd
      exact Or.inl (hd ▸ he)
  · rcases List.mem_append.mp h with h1 | h2
    · exact Or.inl h1
    · exact Or.inr (by simpa using h2)

lemma namesOK_createOp {s : PoolState} {name : String} {now : Nat}
    (h : NamesOK s) (hn : name ≠ "") : NamesOK (createOp s name now) := by
  intro d hd
  have hd2 : d ∈ mapSet s.pool (mkClient name now) := hd
  rcases mem_mapSet hd2 with h1 | h2
  · exact h d h1
  · rw [h2]; exact hn

lemma namesOK_foldl_create (ids : Nat → String) (now : Nat) (hids : ∀ i, ids i ≠ "") :
    ∀ (l : List Nat) (s : PoolState), NamesOK s →
      NamesOK (l.foldl (fun st i => createOp st (ids i) now) s) := by
  intro l
  induction l with
  | nil => intro s h; exact h
  | cons i rest ih => intro s h; exact ih _ (namesOK_createOp h (hids i))

lemma foldl_create_PSTopics (ids : Nat → String) (now : Nat) :
    ∀ (l : List Nat) (s : PoolState),
      (l.foldl (fun st i => createOp st (ids i) now) s).PSTopics = s.PSTopics ∧
      (l.foldl (fun st i => createOp st (ids i) now) s).poolUsedPS = s.poolUsedPS := by
  intro l
  induction l with
  | nil => intro s; exact ⟨rfl, rfl⟩
  | cons i rest ih => intro s; exact ih (createOp s (ids i) now)

lemma acquireAuto_ok {s : PoolState} {fid : String} {now : Nat} {c : Client} {s1 : PoolState}
    (h : acquireAuto s fid now = Except.ok (c, s1)) :
    (c ∈ s.pool ∨ c = mkClient fid now) ∧
    (∀ d ∈ s1.pool, d ∈ s.pool ∨ d = mkClient fid now) ∧
    s1.PSTopics = s.PSTopics ∧ s1.poolUsedPS = s.poolUsedPS := by
  unfold acquireAuto at h
  split at h
  · split at h
    · simp only [Except.ok.injEq, Prod.mk.injEq] at h
      obtain ⟨hc, hs⟩ := h
      subst hc; subst hs
      refine ⟨Or.inr rfl, ?_, rfl, rfl⟩
      intro d hd
      have hd2 : d ∈ mapSet s.pool (mkClient fid now) := hd
      exact mem_mapSet hd2
    · simp at h
  · rename_i c0 rest hsel
    simp only [Except.ok.injEq, Prod.mk.injEq] at h
    obtain ⟨hc, hs⟩ := h
    have hc0 : c0 ∈ selectCandidates s := by
      rw [hsel]; exact List.mem_cons_self c0 rest
    rw [selectCandidates_eq] at hc0
    have hcp : c ∈ s.pool := hc ▸ mem_of_mem_sortByQueue hc0
    subst hs
    exact ⟨Or.inl hcp, fun d hd => Or.inl hd, rfl, rfl⟩

lemma namesOK_stamp {s : PoolState} {name : String} {now : Nat}
    (h : NamesOK s) : NamesOK (stampLastUsed s name now) := by
  intro d hd
  rcases List.mem_map.mp hd with ⟨e, he, hde⟩
  have hname : d.name = e.name := by
    rw [← hde]; split <;> rfl
  rw [hname]; exact h e he

lemma evictScan_inv {now : Nat} {st : PoolState} {c : Client}
    (h : NamesOK st ∧ TopicsPS st) :
    NamesOK (evictScan now st c) ∧ TopicsPS (evictScan now st c) := by
  obtain ⟨hN, hT⟩ := h
  unfold evictScan
  split
  · exact ⟨fun d hd => hN d (List.mem_filter.mp hd).1, hT⟩
  · exact ⟨hN, hT⟩

lemma evict_fold_inv (now : Nat) : ∀ (l : List Client) (st : PoolState),
    NamesOK st ∧ TopicsPS st →
    NamesOK (l.foldl (evictScan now) st) ∧ TopicsPS (l.foldl (evictScan now) st) := by
  intro l
  induction l with
  | nil => intro st h; exact h
  | cons c rest ih => intro st h; exact ih _ (evictScan_inv h)

lemma reachable_inv : ∀ s, ReachableR s → NamesOK s ∧ TopicsPS s := by
  intro s h
  induction h with
  | init minPool maxPool ttl ids now hids =>
    constructor
    · exact namesOK_foldl_create ids now hids _ _ (fun c hc => absurd hc (List.not_mem_nil c))
    · have h1 := foldl_create_PSTopics ids now (List.range minPool) (initState minPool maxPool ttl)
      unfold TopicsPS constructOp
      rw [h1.1, h1.2]
      simp [initState]
  | runStep s fid now ok b s1 hre hfid hrun ih =>
    obtain ⟨hN, hT⟩ := ih
    unfold runOp at hrun
    split at hrun
    · simp at hrun
    · rename_i cA sA hacq
      obtain ⟨hcmem, hdmem, hts, hps⟩ := acquireAuto_ok hacq
      have hNA : NamesOK sA := by
        intro d hd
        rcases hdmem d hd with h1 | h2
        · exact hN d h1
        · rw [h2]; exact hfid
      have hTA : TopicsPS sA := by
        unfold TopicsPS at *
        rw [hts, hps]; exact hT
      split at hrun <;>
      · simp only [Except.ok.injEq, Prod.mk.injEq] at hrun
        obtain ⟨_, hs1⟩ := hrun
        subst hs1
        exact ⟨namesOK_stamp hNA, hTA⟩
  | subStep s topics fid now ok b s1 hre hfid htop hsub ih =>
    obtain ⟨hN, hT⟩ := ih
    unfold subscribeOp at hsub
    split at hsub
    · simp at hsub
    · rename_i cA sA hacq
      obtain ⟨hcmem, hdmem, hts, hps⟩ := acquireAuto_ok hacq
      have hNA : NamesOK sA := by
        intro d hd
        rcases hdmem d hd with h1 | h2
        · exact hN d h1
        · rw [h2]; exact hfid
      have hcname : cA.name ≠ "" := by
        rcases hcmem with h1 | h2
        · exact hN cA h1
        · rw [h2]; exact hfid
      simp only [Except.ok.injEq, Prod.mk.injEq] at hsub
      obtain ⟨_, hs1⟩ := hsub
      subst hs1
      refine ⟨namesOK_stamp hNA, ?_⟩
      unfold TopicsPS
      show sA.PSTopics ++ topics = [] ↔ cA.name = ""
      constructor
      · intro hh
        exact absurd (List.append_eq_nil.mp hh).2 htop
      · intro hh
        exact absurd hh hcname
  | unsubStep s topics fid now b s1 hre hfid huns ih =>
    obtain ⟨hN, hT⟩ := ih
    unfold unsubscribeOp at huns
    split at huns
    · simp at huns
    · rename_i cA sA hacq
      obtain ⟨hcmem, hdmem, hts, hps⟩ := acquireAuto_ok hacq
      have hNA : NamesOK sA := by
        intro d hd
        rcases hdmem d hd with h1 | h2
        · exact hN d h1
        · rw [h2]; exact hfid
      unfold punsubReturn at huns
      split at huns
      · rename_i hlen
        split at huns
        · simp only [Except.ok.injEq, Prod.mk.injEq] at huns
          obtain ⟨_, hs1⟩ := huns
          subst hs1
          refine ⟨namesOK_stamp hNA, ?_⟩
          unfold TopicsPS
          show sA.PSTopics.filter (fun x => !(topics.contains x)) = [] ↔ ("" : String) = ""
          have hemp : sA.PSTopics.filter (fun x => !(topics.contains x)) = [] :=
            List.length_eq_zero.mp (Nat.lt_one_iff.mp hlen)
          exact iff_of_true hemp rfl
        · rename_i hfalse
          exact absurd rfl hfalse
      · rename_i hlen
        split at huns
        · simp only [Except.ok.injEq, Prod.mk.injEq] at huns
          obtain ⟨_, hs1⟩ := huns
          subst hs1
          refine ⟨namesOK_stamp hNA, ?_⟩
          unfold TopicsPS
          show sA.PSTopics.filter (fun x => !(topics.contains x)) = [] ↔ sA.poolUsedPS = ""
          have hne : sA.PSTopics.filter (fun x => !(topics.contains x)) ≠ [] := by
            intro hh
            apply hlen
            show (sA.PSTopics.filter (fun x => !(topics.contains x))).length < 1
            rw [hh]
            exact Nat.zero_lt_one
          constructor
          · intro hh; exact absurd hh hne
          · intro hh
            have hsem : s.PSTopics = [] := hT.mpr (by rw [← hps]; exact hh)
            have : sA.PSTopics.filter (fun x => !(topics.contains x)) = [] := by
              rw [hts, hsem]
              rfl
            exact absurd this hne
        · rename_i hfalse
          exact absurd rfl hfalse
  | evictStep s now hre ih =>
    exact evict_fold_inv now s.pool s ih
  | errStep s name ids now hre hids ih =>
    obtain ⟨hN, hT⟩ := ih
    unfold onClientErrorOp
    have hNF : NamesOK { s with pool := s.pool.filter (fun c => c.name ≠ name) } :=
      fun d hd => hN d (List.mem_filter.mp hd).1
    split
    · constructor
      · exact namesOK_foldl_create ids now hids _ _ hNF
      · have h1 := foldl_create_PSTopics ids now (List.range s.minPool)
          { s with pool := s.pool.filter (fun c => c.name ≠ name) }
        unfold TopicsPS
        rw [h1.1, h1.2]
        exact hT
    · exact ⟨hNF, hT⟩
  | acquireIdStep s id hre ih =>
    exact ih
  | releaseStep s c hre ih =>
    exact ih

/-- C7 (amended): a `subscribe([t])` followed by a completing
`unsubscribe([t])`, starting from a state with no active topics, leaves
`PSTopics` empty and the subscriber designation cleared (so the connection
is again an automatic-selection candidate); and on every trace in which
each `subscribe` call passes a non-empty topic list and each
`PUNSUBSCRIBE` completes, `PSTopics` is empty exactly when `poolUsedPS`
is cleared. -/
theorem c7_roundtrip_and_designation :
    (∀ s, ReachableR s → (s.PSTopics = [] ↔ s.poolUsedPS = "")) ∧
    (∀ s t fid1 fid2 now1 now2 ok1 b1 b2 s1 s2,
      s.PSTopics = [] →
      subscribeOp s [t] fid1 now1 ok1 = Except.ok (b1, s1) →
      unsubscribeOp s1 [t] fid2 now2 true = Except.ok (b2, s2) →
      s2.PSTopics = [] ∧ s2.poolUsedPS = "") := by
  constructor
  · intro s h
    exact (reachable_inv s h).2
  · intro s t fid1 fid2 now1 now2 ok1 b1 b2 s1 s2 hS hsub huns
    have hS1 : s1.PSTopics = [t] := by
      unfold subscribeOp at hsub
      split at hsub
      · simp at hsub
      · rename_i cA sA hacq
        obtain ⟨_, _, hts, _⟩ := acquireAuto_ok hacq
        simp only [Except.ok.injEq, Prod.mk.injEq] at hsub
        obtain ⟨_, hs1⟩ := hsub
        subst hs1
        show sA.PSTopics ++ [t] = [t]
        rw [hts, hS]
        rfl
    unfold unsubscribeOp at huns
    split at huns
    · simp at huns
    · rename_i cB sB hacq2
      obtain ⟨_, _, hts2, _⟩ := acquireAuto_ok hacq2
      have hfe : sB.PSTopics.filter (fun x => !(([t] : List String).contains x)) = [] := by
        rw [hts2, hS1]
        simp
      unfold punsubReturn at huns
      split at huns
      · split at huns
        · simp only [Except.ok.injEq, Prod.mk.injEq] at huns
          obtain ⟨_, hs2⟩ := huns
          subst hs2
          exact ⟨hfe, rfl⟩
        · rename_i hfalse
          exact absurd rfl hfalse
      · rename_i hlen
        refine absurd ?_ hlen
        show (sB.PSTopics.filter (fun x => !(([t] : List String).contains x))).length < 1
        rw [hfe]
        exact Nat.zero_lt_one

/-- Witness for `c7_roundtrip_and_designation`: the invariant at the
freshly constructed pool, and the round trip `subscribe(["x"])` then
`unsubscribe(["x"])` evaluated there. -/
theorem c7_roundtrip_and_designation_witness :
    ((constructOp 1 10 100 (fun _ => "a") 0).PSTopics = [] ↔
      (constructOp 1 10 100 (fun _ => "a") 0).poolUsedPS = "") ∧
    ((⟨1, 10, 100, [⟨"a", 2, 0⟩], [none], "", []⟩ : PoolState).PSTopics = [] ∧
      (⟨1, 10, 100, [⟨"a", 2, 0⟩], [none], "", []⟩ : PoolState).poolUsedPS = "") :=
  ⟨c7_roundtrip_and_designation.1 _
      (ReachableR.init 1 10 100 (fun _ => "a") 0
        (fun _ => (by decide : ("a" : String) ≠ ""))),
   c7_roundtrip_and_designation.2 (constructOp 1 10 100 (fun _ => "a") 0)
      "x" "f" "g" 1 2 true true true
      (⟨1, 10, 100, [⟨"a", 1, 0⟩], [none], "a", ["x"]⟩ : PoolState)
      (⟨1, 10, 100, [⟨"a", 2, 0⟩], [none], "", []⟩ : PoolState)
      rfl rfl rfl⟩

/-- C10: `subscribe` issues `PSUBSCRIBE` fire-and-forget through the
callback-style `rawCall` and returns `Promise.resolve(true)`: its result
and the resulting state do not depend on the PSUBSCRIBE outcome oracle,
and whenever the pool is non-empty (always the case under a valid
configuration) the promise resolves to `true` — a PSUBSCRIBE failure can
neither reject it nor make it `false`. -/
theorem c10_subscribe_resolves_true (s : PoolState) (topics : List String)
    (fid : String) (now : Nat) (ok1 ok2 : Bool) (h : s.pool ≠ []) :
    subscribeOp s topics fid now ok1 = subscribeOp s topics fid now ok2 ∧
    ∃ s1, subscribeOp s topics fid now ok1 = Except.ok (true, s1) := by
  constructor
  · rfl
  · have hlen : (selectCandidates s).length = s.pool.length := by
      rw [selectCandidates_eq, sortByQueue_length]
    cases hsel : selectCandidates s with
    | nil =>
      rw [hsel] at hlen
      exact absurd (List.length_eq_zero.mp hlen.symm) h
    | cons c rest =>
      exact ⟨_, by unfold subscribeOp acquireAuto; rw [hsel]⟩

/-- Witness for `c10_subscribe_resolves_true` on the freshly constructed
pool, with the PSUBSCRIBE outcome oracle set to failure. -/
theorem c10_subscribe_resolves_true_witness :
    (subscribeOp (constructOp 1 10 100 (fun _ => "a") 0) ["x"] "f" 1 false =
      subscribeOp (constructOp 1 10 100 (fun _ => "a") 0) ["x"] "f" 1 true) ∧
    ∃ s1, subscribeOp (constructOp 1 10 100 (fun _ => "a") 0) ["x"] "f" 1 false =
      Except.ok (true, s1) :=
  c10_subscribe_resolves_true (constructOp 1 10 100 (fun _ => "a") 0)
    ["x"] "f" 1 false true (by decide)
